import Mathlib

/-!
Shallow embedding of the BDF core of the `diffsol` repository
(`src/ode_solver/bdf.rs`, `src/callable/ode.rs`,
`src/nonlinear_solver/newton.rs`, `src/errors/mod.rs`).

Scalars of the source (`T: Scalar`, IEEE float in the reference backend) are
modelled as `ℚ`; the claims under study are algebraic/control-flow claims, not
rounding claims.  State vectors are modelled either as an abstract
`ℚ`-module `V` or concretely as `Fin n → ℚ`.  Difference tables (matrix rows)
are modelled as functions `ℕ → V`; in-place row writes become
`Function.update`.  Definitions named `spec...` follow the words of the
specification/claim and exist only to be compared with the definitions
translated from the source.
-/

namespace Diffsol

/-! ### Constants of `Bdf` (bdf.rs lines 26-29) -/

/-- Constant `Self::MAX_ORDER = 5` (bdf.rs line 26). -/
def maxOrder : ℕ := 5

/-- Number of rows of `diff` allocated in `Bdf::new`:
`M::zeros(Self::MAX_ORDER, n)` (bdf.rs line 39). -/
def bdfNewDiffRows : ℕ := maxOrder

/-- Number of rows of `diff` allocated in `Bdf::set_state`:
`M::zeros(Self::MAX_ORDER + 1, nstates)` (bdf.rs line 144). -/
def setStateDiffRows : ℕ := maxOrder + 1

/-- Highest row index written by `Bdf::_update_differences` at order `k`:
the method writes rows `k+2`, `k+1` and `k..0` (bdf.rs lines 112-116). -/
def updateDiffTopRow (k : ℕ) : ℕ := k + 2

/-! ### BDF coefficients computed in `Bdf::set_state` (bdf.rs lines 147-157) -/

/-- Values `kappa` from `set_state`:
`vec![0, -0.1850, -1 / 9, -0.0823, -0.0415, 0]` (bdf.rs line 148),
as exact rationals. -/
def kappaList : List ℚ := [0, -37/200, -1/9, -823/10000, -83/2000, 0]

/-- The local `let mut gamma = 0;` of `set_state` (bdf.rs line 152).
It is declared mutable but never reassigned inside the loop, so its value is
`0` at every loop iteration. -/
def setStateGammaLocal : ℚ := 0

/-- The loop of `set_state` (bdf.rs lines 153-157) building the three
coefficient lists, starting from `alpha = gamma = error_const = vec![0]`:
for `i` in `1..=MAX_ORDER`:
* `gamma.push(gamma[i-1] + 1 / (i + 1))`,
* `alpha.push(1.0 / ((1 - kappa[i]) * gamma))` (the *local* `gamma`),
* `error_const.push(kappa[i] * gamma + 1 / (i + 1))` (the *local* `gamma`).
The triple is `(gamma, alpha, error_const)`. -/
def setStateCoeffs : List ℚ × List ℚ × List ℚ :=
  (List.range' 1 maxOrder).foldl
    (fun acc i =>
      (acc.1 ++ [acc.1.getD (i - 1) 0 + 1 / ((i : ℚ) + 1)],
       acc.2.1 ++ [1 / ((1 - kappaList.getD i 0) * setStateGammaLocal)],
       acc.2.2 ++ [kappaList.getD i 0 * setStateGammaLocal + 1 / ((i : ℚ) + 1)]))
    ([0], [0], [0])

/-- The `gamma` list stored by `set_state`. -/
def setStateGamma : List ℚ := setStateCoeffs.1

/-- The `alpha` list stored by `set_state`. -/
def setStateAlpha : List ℚ := setStateCoeffs.2.1

/-- The `error_const` list stored by `set_state`. -/
def setStateErrorConst : List ℚ := setStateCoeffs.2.2

/-- Claim-side recurrence for `γ`: `γ₀ = 0`, `γᵢ = γ_{i-1} + 1/i`
(spec §3, claim C2).  Comparison definition only. -/
def specGamma : ℕ → ℚ
  | 0 => 0
  | i + 1 => specGamma i + 1 / ((i : ℚ) + 1)

/-- Claim-side `αᵢ = 1/((1 − κᵢ)·γᵢ)` (spec §3, claim C2).
Comparison definition only. -/
def specAlpha (i : ℕ) : ℚ := 1 / ((1 - kappaList.getD i 0) * specGamma i)

/-- Claim-side `error_constᵢ = κᵢ·γᵢ + 1/(i+1)` (spec §3, claim C2).
Comparison definition only. -/
def specErrorConst (i : ℕ) : ℚ := kappaList.getD i 0 * specGamma i + 1 / ((i : ℚ) + 1)

/-! ### `Bdf::_compute_r` (bdf.rs lines 56-72) -/

/-- Entries of the matrix built by `Bdf::_compute_r(order, factor)`:
`let mut r = M::zeros(order + 1, order + 1…)`, then for `i` in `1..=order`,
`j` in `1..=order`: `r[(i, j)] = r[(i-1, j)] * (i - 1 - factor * j) / i`.
Row `0` and column `0` are never written and keep their `zeros` value.
The order argument only bounds the matrix size; since each written entry
depends only on the entry directly above it, the entry values are
independent of `order` and are modelled as a function of `(i, j)`. -/
def computeRfun (factor : ℚ) : ℕ → ℕ → ℚ
  | 0, _ => 0
  | _ + 1, 0 => 0
  | i + 1, j + 1 => computeRfun factor i (j + 1) * ((i : ℚ) - factor * ((j : ℚ) + 1)) / ((i : ℚ) + 1)

/-- Claim-side `R(k, r)`: `R[0,0] = 1`, `R[0,j] = 1` for `j > 0`,
`R[i,j] = R[i-1,j]·(i−1−r·j)/i` for `i, j ≥ 1` (spec §3, claim C5).
Comparison definition only; entries with `i ≥ 1, j = 0` are not constrained
by the claim and here simply extend the same recurrence. -/
def specRfun (factor : ℚ) : ℕ → ℕ → ℚ
  | 0, _ => 1
  | i + 1, j => specRfun factor i j * ((i : ℚ) - factor * (j : ℚ)) / ((i : ℚ) + 1)

/-- The order argument that `set_state` passes when building `U`:
`self.u = self._compute_R(self.order, 1.0)` with `self.order = 1` at that
point (bdf.rs lines 140 and 192). -/
def setStateUOrder : ℕ := 1

/-! ### `BdfCallable::call` (ode.rs lines 71-78)

`Matrix::gemv(alpha, x, beta, y)` is documented in matrix/mod.rs line 197 as
`y = alpha * self * x + beta * y`; the mass operator's `gemv(x, p, alpha,
beta, y)` applies the same convention to the operator's action.  The mass
action and the right-hand side are abstract functions of `(p, x)` here. -/

/-- Method `BdfCallable::call(x, p, y)` from ode.rs lines 71-78:
`self.rhs.call(x, p, y)` (so `y = f(x, p)`), then
`tmp = x - psi_neg_y0`, then `self.mass.gemv(&tmp, p, 1, -c, y)`
(so the result is `M·tmp − c·y`). -/
def bdfCallableCall {P V : Type} [AddCommGroup V] [Module ℚ V]
    (f mass : P → V → V) (c : ℚ) (psiNegY0 : V) (p : P) (x : V) : V :=
  let y := f p x
  let tmp := x - psiNegY0
  mass p tmp - c • y

/-- Claim-side residual `F(y) = M·(y + (ψ − y0)) − c·f(y, p)` where
`psiNegY0` stores `ψ − y0` (spec §4.D, claim C1).
Comparison definition only. -/
def specBdfCall {P V : Type} [AddCommGroup V] [Module ℚ V]
    (f mass : P → V → V) (c : ℚ) (psiNegY0 : V) (p : P) (x : V) : V :=
  mass p (x + psiNegY0) - c • f p x

/-- Method `BdfCallable::set_psi_and_y0(diff, gamma, alpha, order, y0)`
(ode.rs lines 43-54): `psi_neg_y0 ← α[order]·(γ₀·D[0] + Σ_{i=1..order} γᵢ·D[i]) − y0`.
(The code seeds the sum with `diff.column(0) * gamma[0]` and then adds the
terms for `i = 1..order`.) -/
def setPsiAndY0 {V : Type} [AddCommGroup V] [Module ℚ V]
    (diff : ℕ → V) (gammaL alphaL : List ℚ) (order : ℕ) (y0 : V) : V :=
  alphaL.getD order 0 •
      (gammaL.getD 0 0 • diff 0 + ∑ i in Finset.Icc 1 order, gammaL.getD i 0 • diff i)
    - y0

/-! ### `Bdf::_update_differences` (bdf.rs lines 100-117)

The difference table is a function `ℕ → V` from row index to row; the
in-place row writes of the source become `Function.update`. -/

/-- One iteration of the final loop of `_update_differences`:
`self.diff.row_mut(i) += self.diff.row(i + 1)` (bdf.rs line 115). -/
def diffCascadeStep {V : Type} [AddCommGroup V] (t : ℕ → V) (i : ℕ) : ℕ → V :=
  Function.update t i (t i + t (i + 1))

/-- The loop `for i in (0..=order).rev() { diff.row_mut(i) += diff.row(i+1) }`
(bdf.rs lines 114-116), processing rows `k, k−1, …, 0`; each row read of
`i + 1` sees the already-updated value, exactly as in the in-place code. -/
def diffCascade {V : Type} [AddCommGroup V] : ℕ → (ℕ → V) → (ℕ → V)
  | 0, t => diffCascadeStep t 0
  | i + 1, t => diffCascade i (diffCascadeStep t (i + 1))

/-- Method `Bdf::_update_differences(d)` at order `k` (bdf.rs lines 100-117):
`diff.row_mut(k+2) = d - diff.row(k+1)`, then `diff.row_mut(k+1) = d`,
then the downward accumulation loop over rows `k..0`. -/
def updateDifferences {V : Type} [AddCommGroup V] (k : ℕ) (d : V) (t : ℕ → V) : ℕ → V :=
  diffCascade k
    (Function.update (Function.update t (k + 2) (d - t (k + 1))) (k + 1) d)

/-! ### Order/step controller error vectors (bdf.rs lines 279-292)

The controller norms `‖·‖` are applied to the vectors below after a
componentwise division by `scale_y`; since the claim and the code apply the
same norm to their respective vectors, the divergence is settled on the
vectors themselves (`Vector::norm`'s definition is not part of src/). -/

/-- Vector normed for the order `k−1` candidate in `Bdf::step`:
`self.diff.row(order) * self.error_const[order]` (bdf.rs line 280). -/
def errorMVecCode {V : Type} [AddCommGroup V] [Module ℚ V]
    (errorConst : List ℚ) (diff : ℕ → V) (order : ℕ) : V :=
  errorConst.getD order 0 • diff order

/-- Vector normed for the order `k+1` candidate in `Bdf::step`:
`self.diff.row(order) * self.error_const[order + 2]` (bdf.rs line 287). -/
def errorPVecCode {V : Type} [AddCommGroup V] [Module ℚ V]
    (errorConst : List ℚ) (diff : ℕ → V) (order : ℕ) : V :=
  errorConst.getD (order + 2) 0 • diff order

/-- Claim-side order `k−1` candidate vector `error_const[k−1]·D[k]`
(spec §4.E, claim C4).  Comparison definition only. -/
def specErrorMVec {V : Type} [AddCommGroup V] [Module ℚ V]
    (errorConst : List ℚ) (diff : ℕ → V) (order : ℕ) : V :=
  errorConst.getD (order - 1) 0 • diff order

/-- Claim-side order `k+1` candidate vector `error_const[k+1]·D[k+2]`
(spec §4.E, claim C4).  Comparison definition only. -/
def specErrorPVec {V : Type} [AddCommGroup V] [Module ℚ V]
    (errorConst : List ℚ) (diff : ℕ → V) (order : ℕ) : V :=
  errorConst.getD (order + 1) 0 • diff (order + 2)

/-! ### `Bdf::interpolate` (bdf.rs lines 122-133) -/

/-- The loop of `Bdf::interpolate` after `m` iterations, returning the pair
`(time_factor, order_summation)`.  Iteration `i` (0-based) performs
`time_factor *= (t - (state.t - state.h * i)) / (state.h * (1 + i))` and
`order_summation += diff.row(i + 1) * time_factor` (bdf.rs lines 128-131). -/
def interpGo {V : Type} [AddCommGroup V] [Module ℚ V]
    (tn h t : ℚ) (diff : ℕ → V) : ℕ → ℚ × V
  | 0 => (1, diff 0)
  | m + 1 =>
    let p := interpGo tn h t diff m
    let tf := p.1 * ((t - (tn - h * (m : ℚ))) / (h * (1 + (m : ℚ))))
    (tf, p.2 + tf • diff (m + 1))

/-- Method `Bdf::interpolate(t)` (bdf.rs lines 122-133): runs the loop for
`i in 0..order` starting from `order_summation = diff.row(0)` and returns the
summation.  The function is total: the source performs no range check on `t`
and its return type (`V`, not `Result`) admits no error. -/
def interpolateBdf {V : Type} [AddCommGroup V] [Module ℚ V]
    (order : ℕ) (tn h : ℚ) (diff : ℕ → V) (t : ℚ) : V :=
  (interpGo tn h t diff order).2

/-- The interpolation error kinds of `PSError` (errors/mod.rs lines 9-12). -/
inductive InterpErr : Type
  | interpolationBeforeCurrentTime : InterpErr
  | interpolationOutsideCurrentStep : InterpErr
deriving DecidableEq

/-- Claim-side fallible interpolation (spec §4.F and §7, claim C8): returns
the BDF interpolant exactly when `t − h ≤ t* ≤ t` and an out-of-range
interpolation error otherwise.  Comparison definition only. -/
def specInterpolate {V : Type} [AddCommGroup V] [Module ℚ V]
    (order : ℕ) (tn h : ℚ) (diff : ℕ → V) (t : ℚ) : Except InterpErr V :=
  if t < tn - h then .error .interpolationOutsideCurrentStep
  else if tn < t then .error .interpolationBeforeCurrentTime
  else .ok (interpolateBdf order tn h diff t)

/-! ### `NewtonNonlinearSolver::solve_in_place` (newton.rs lines 81-130)

The convergence monitor (`Convergence`, not part of src/) is abstracted by
its interface: a reset from the reference state and a `check_new_iteration`
step returning an updated monitor state and a status.  The operator supplies
the residual `f` (at the fixed parameter vector) and `linearise`, producing
the linear problem installed into the linear solver; `solveW j b` is the
linear solver's `solve_in_place` under installed problem `j`, with `none`
modelling a propagated linear-solver error (`?` on newton.rs line 103). -/

/-- Statuses `ConvergenceStatus` (used on newton.rs lines 110-115). -/
inductive ConvStatus : Type
  | cont : ConvStatus
  | converged : ConvStatus
  | diverged : ConvStatus
  | maximumIterations : ConvStatus
deriving DecidableEq

/-- Interface of the convergence monitor, with monitor state `C`. -/
structure ConvMonitor (V C : Type) where
  reset : V → C
  check : C → V → C × ConvStatus

/-- The solver problem: residual (parameters folded in) and linearisation. -/
structure SolverProb (V J : Type) where
  f : V → V
  linearise : V → J

/-- Outcome of the inner iteration loop (newton.rs lines 98-116), carrying
the current iterate, monitor state and iteration counter. -/
inductive InnerOut (V C : Type) : Type
  | converged (xn : V) (c : C) (niter : ℕ) : InnerOut V C
  | failed (xn : V) (c : C) (niter : ℕ) : InnerOut V C
  | linErr (xn : V) (c : C) (niter : ℕ) : InnerOut V C
  | fuelOut (xn : V) (c : C) (niter : ℕ) : InnerOut V C
deriving DecidableEq

/-- The inner loop of `solve_in_place` (newton.rs lines 98-116):
`niter += 1`; `tmp ← f(xn)`; `tmp ← linear_solve(tmp)` (propagating an
error); `xn ← xn − tmp`; then the convergence check: `Continue` loops,
`Converged` succeeds, `Diverged`/`MaximumIterations` exit to the restart
logic (modelled as `.failed`).  `fuel` bounds the number of iterations of
one run; the source loop is bounded in reality by the monitor's
maximum-iteration status. -/
def newtonInner {V C : Type} [Sub V]
    (f : V → V) (solve : V → Option V) (mon : ConvMonitor V C) :
    ℕ → V → C → ℕ → InnerOut V C
  | 0, xn, c, n => .fuelOut xn c n
  | fuel + 1, xn, c, n =>
    let n' := n + 1
    match solve (f xn) with
    | none => .linErr xn c n'
    | some tmp =>
      let xn' := xn - tmp
      let r := mon.check c tmp
      match r.2 with
      | .cont => newtonInner f solve mon fuel xn' r.1 n'
      | .converged => .converged xn' r.1 n'
      | .diverged => .failed xn' r.1 n'
      | .maximumIterations => .failed xn' r.1 n'

/-- Result kind of `solve_in_place`. -/
inductive NewtonRes : Type
  | ok : NewtonRes
  | didNotConverge : NewtonRes
  | beforeSetProblem : NewtonRes
  | linFailure : NewtonRes
  | fuelOut : NewtonRes
deriving DecidableEq

/-- Observable outcome of `solve_in_place`: result kind, final iterate (the
in-place `xn`), the problem finally installed in the linear solver, the
number of Newton iterations performed in this call (equal to the number of
linear solves attempted), and the number of `linear_solver.set_problem`
calls made during this call. -/
structure NewtonOut (V J : Type) where
  res : NewtonRes
  xn : V
  linProblem : Option J
  niter : ℕ
  nJacRefresh : ℕ
deriving DecidableEq

/-- Method `NewtonNonlinearSolver::solve_in_place(xn)` (newton.rs lines 81-130):
* guard: if no convergence monitor or no problem is set, return an error
  immediately (lines 82-84);
* `x0 ← xn.clone()`; `convergence.reset(&x0)` (lines 87-88);
* `updated_jacobian ← false` if the linear solver already has a problem,
  else install `linearise(x0)` and set it `true` (lines 90-95);
* run the inner loop; on failure with `updated_jacobian = false`, install
  `linearise(x0)`, restore `xn ← x0`, set `updated_jacobian = true` and
  rerun (the monitor state and `niter` carry over — the source does not
  reset them); a second failure returns the did-not-converge error
  (lines 97-129). -/
def solveInPlace {V J C : Type} [Sub V]
    (probOpt : Option (SolverProb V J)) (convOpt : Option (ConvMonitor V C))
    (solveW : J → V → Option V) (linProblem : Option J) (fuel : ℕ) (xn : V) :
    NewtonOut V J :=
  match convOpt, probOpt with
  | some mon, some prob =>
    let x0 := xn
    let c0 := mon.reset x0
    match linProblem with
    | some j0 =>
      match newtonInner prob.f (solveW j0) mon fuel xn c0 0 with
      | .converged x _ n => ⟨.ok, x, some j0, n, 0⟩
      | .linErr x _ n => ⟨.linFailure, x, some j0, n, 0⟩
      | .fuelOut x _ n => ⟨.fuelOut, x, some j0, n, 0⟩
      | .failed _ c n =>
        let j1 := prob.linearise x0
        match newtonInner prob.f (solveW j1) mon fuel x0 c n with
        | .converged x' _ n' => ⟨.ok, x', some j1, n', 1⟩
        | .failed x' _ n' => ⟨.didNotConverge, x', some j1, n', 1⟩
        | .linErr x' _ n' => ⟨.linFailure, x', some j1, n', 1⟩
        | .fuelOut x' _ n' => ⟨.fuelOut, x', some j1, n', 1⟩
    | none =>
      let j0 := prob.linearise x0
      match newtonInner prob.f (solveW j0) mon fuel xn c0 0 with
      | .converged x _ n => ⟨.ok, x, some j0, n, 1⟩
      | .failed x _ n => ⟨.didNotConverge, x, some j0, n, 1⟩
      | .linErr x _ n => ⟨.linFailure, x, some j0, n, 1⟩
      | .fuelOut x _ n => ⟨.fuelOut, x, some j0, n, 1⟩
  | _, _ => ⟨.beforeSetProblem, xn, linProblem, 0, 0⟩

/-! ### `Bdf` stepper state and `_update_step_size` (bdf.rs lines 74-97)

The stepper's mutable data relevant to the step-size update and the Newton
failure branch, with vectors as `Fin n → ℚ` and the difference table as its
row function.  The two staleness flags live on the `BdfCallable`
(ode.rs lines 17-18): `rhs_jacobian_is_stale` and `jacobian_is_stale`. -/

structure BdfStepState (n : ℕ) where
  h : ℚ
  nEqualSteps : ℕ
  order : ℕ
  diff : ℕ → Fin n → ℚ
  y : Fin n → ℚ
  scaleY : Fin n → ℚ
  u : ℕ → ℕ → ℚ
  gammaL : List ℚ
  alphaL : List ℚ
  rtol : ℚ
  atol : Fin n → ℚ
  c : ℚ
  psiNegY0 : Fin n → ℚ
  rhsJacStale : Bool
  jacStale : Bool

/-- Entry `(i, j)` of a product of two matrices given as index functions,
with inner dimension `m` (`Matrix::gemm` with `alpha = 1`, `beta = 0`). -/
def matMulIdx (m : ℕ) (a b : ℕ → ℕ → ℚ) : ℕ → ℕ → ℚ :=
  fun i j => ∑ l in Finset.range m, a i l * b l j

/-- Method `Bdf::_update_step_size(factor)` (bdf.rs lines 74-97):
`h *= factor`; `n_equal_steps = 0`; `r ← _compute_R(order, factor)`;
`ru ← r · u`; rows `0..=order` of `diff` are replaced by the `ru`-combination
of the old rows (the `gemm` into `diff_tmp` followed by the swap; written
here as row `i` ← `Σ_l ru[l, i] · diff[l]`, the dimensionally consistent
reading of the source's product of the leading rows of `diff` with `ru`);
then `_predict()` (bdf.rs lines 48-54): `y += Σ_{i=1..order} diff[i]` and
`scale_y = atol + rtol·|y|`; then `set_psi_and_y0` and `set_c` on the
callable — `set_c` (ode.rs lines 39-42) sets `c ← h·alpha[order]` and marks
`jacobian_is_stale = true`, leaving `rhs_jacobian_is_stale` untouched. -/
def updateStepSize {n : ℕ} (factor : ℚ) (s : BdfStepState n) : BdfStepState n :=
  let h' := s.h * factor
  let r := computeRfun factor
  let ru := matMulIdx (s.order + 1) r s.u
  let diff' : ℕ → Fin n → ℚ := fun i =>
    if i ≤ s.order then
      fun idx => ∑ l in Finset.range (s.order + 1), ru l i * s.diff l idx
    else s.diff i
  let y' : Fin n → ℚ := s.y + ∑ i in Finset.Icc 1 s.order, diff' i
  let scale' : Fin n → ℚ := fun idx => s.atol idx + s.rtol * |y' idx|
  let psi' := setPsiAndY0 diff' s.gammaL s.alphaL s.order y'
  let c' := h' * s.alphaL.getD s.order 0
  { s with
    h := h', nEqualSteps := 0, diff := diff', y := y', scaleY := scale',
    psiNegY0 := psi', c := c', jacStale := true }

/-- The Newton-failure branch of `Bdf::step` (bdf.rs lines 251-257): on
`Err(_)` from the nonlinear solve the stepper runs
`self._update_step_size(0.3)` and retries; nothing else is mutated in this
branch. -/
def newtonFailStep {n : ℕ} (s : BdfStepState n) : BdfStepState n :=
  updateStepSize (3 / 10) s

/-! ### Concrete instances used by witnesses and counterexamples -/

/-- A right-hand side that is identically zero (one state, no parameters). -/
def exRhsZero : Unit → ℚ → ℚ := fun _ _ => 0

/-- The identity mass action (one state, no parameters). -/
def exMassId : Unit → ℚ → ℚ := fun _ v => v

/-- A one-state difference table with `D[1] = 1` and all other rows `0`. -/
def exTableC9 : ℕ → ℚ := fun j => if j = 1 then 1 else 0

/-- A one-state difference table with `D[0] = 1`, `D[1] = 2`, other rows `0`. -/
def exTableC8 : ℕ → ℚ := fun j => if j = 0 then 1 else if j = 1 then 2 else 0

/-- A one-state difference table with `D[2] = 1` and all other rows `0`. -/
def exTableC4 : ℕ → ℚ := fun j => if j = 2 then 1 else 0

/-- A concrete scalar solver problem: residual `x ↦ x`, linearisation the
constant linear problem `7`. -/
def exNewtProb : SolverProb ℚ ℚ := ⟨fun x => x, fun _ => 7⟩

/-- A concrete convergence monitor over state `ℕ`: the first check reports
divergence, every later check reports convergence. -/
def exNewtMon : ConvMonitor ℚ ℕ :=
  ⟨fun _ => 0, fun c _ => (c + 1, if c = 0 then .diverged else .converged)⟩

/-- A concrete linear solver action: ignores the installed problem and
returns the right-hand side unchanged. -/
def exNewtSolve : ℚ → ℚ → Option ℚ := fun _ v => some v

/-- A concrete one-state stepper state whose rhs-Jacobian flag is fresh
(`false`) when the Newton failure branch runs. -/
def exStepState : BdfStepState 1 where
  h := 1
  nEqualSteps := 3
  order := 1
  diff := fun _ _ => 0
  y := fun _ => 1
  scaleY := fun _ => 1
  u := computeRfun 1
  gammaL := setStateGamma
  alphaL := setStateAlpha
  rtol := 1 / 100
  atol := fun _ => 1 / 1000
  c := 1
  psiNegY0 := fun _ => 0
  rhsJacStale := false
  jacStale := false

/-! ## Theorems -/

/-- Claim C2: after `set_state` the coefficient vectors should satisfy
`gamma[i] = gamma[i-1] + 1/i`, `alpha[i] = 1/((1 − kappa[i])·gamma[i])` and
`error_const[i] = kappa[i]·gamma[i] + 1/(i+1)`.  The source instead computes
`gamma[i] = gamma[i-1] + 1/(i+1)` and reads the never-updated local
`let mut gamma = 0` in `alpha` and `error_const`: already at `i = 1` the
stored `gamma[1]` is `1/2` where the claim requires `1`, the stored
`error_const[1]` is `1/2` where the claim requires `63/200`, and the
denominator `(1 − kappa[1])·gamma_local` of `alpha[1]` is `0` (a division
by zero; `0` in the `ℚ` model, `+∞` in the floating-point source). -/
theorem setState_coeffs_eval :
    setStateGamma.getD 1 0 = 1 / 2 ∧ specGamma 1 = 1 ∧
    setStateErrorConst.getD 1 0 = 1 / 2 ∧ specErrorConst 1 = 63 / 200 ∧
    ((1 : ℚ) - kappaList.getD 1 0) * setStateGammaLocal = 0 ∧
    setStateGamma = [0, 1/2, 5/6, 13/12, 77/60, 29/20] ∧
    setStateErrorConst = [0, 1/2, 1/3, 1/4, 1/5, 1/6] := by
  refine ⟨?_, ?_, ?_, ?_, ?_, ?_, ?_⟩ <;>
    norm_num [setStateGamma, setStateErrorConst, setStateCoeffs, maxOrder,
      List.range', setStateGammaLocal, kappaList, specGamma, specErrorConst]

/-- Claim C5: `_compute_r(k, r)` should return `R(k, r)` with first row all
ones (`R[0,0] = 1`, `R[0,j] = 1`).  The source allocates the matrix with
`M::zeros` and never writes row 0 or column 0, so every entry — including
the recurrence entries seeded from row 0 — is `0`; and `set_state` builds
`U` as `_compute_R(self.order, 1.0)` with `self.order = 1`, not
`R(k_max, 1)`. -/
theorem compute_r_eval :
    computeRfun 1 0 0 = 0 ∧ computeRfun 1 0 1 = 0 ∧
    computeRfun 1 1 1 = 0 ∧ computeRfun 1 2 2 = 0 ∧
    specRfun 1 0 0 = 1 ∧ specRfun 1 0 1 = 1 ∧ specRfun 1 1 1 = -1 ∧
    setStateUOrder = 1 ∧ maxOrder = 5 ∧ setStateUOrder ≠ maxOrder := by
  refine ⟨?_, ?_, ?_, ?_, ?_, ?_, ?_, ?_, ?_, ?_⟩ <;>
    norm_num [computeRfun, specRfun, setStateUOrder, maxOrder]

/-- Claim C6: the difference table should be allocated with `k_max + 2 = 7`
rows so that every row access of the stepper is within bounds.  The source's
`set_state` allocates `MAX_ORDER + 1 = 6` rows (`new` even allocates only
`MAX_ORDER = 5`), while `_update_differences` at order `k` writes row
`k + 2`: already at `k = 4` the write targets row 6 of a 6-row table, and at
`k = k_max = 5` it targets row 7, which even the claimed 7-row allocation
would not contain. -/
theorem diff_alloc_eval :
    setStateDiffRows = 6 ∧ setStateDiffRows ≠ maxOrder + 2 ∧
    bdfNewDiffRows = 5 ∧
    ¬(updateDiffTopRow 4 < setStateDiffRows) ∧
    ¬(updateDiffTopRow 5 < maxOrder + 2) := by
  refine ⟨rfl, by decide, rfl, by decide, by decide⟩

/-- Rows above the highest processed index are untouched by the downward
accumulation loop of `_update_differences`. -/
theorem diffCascade_gt {V : Type} [AddCommGroup V] (k : ℕ) (t : ℕ → V) (j : ℕ)
    (h : k < j) : diffCascade k t j = t j := by
  induction k generalizing t with
  | zero =>
    unfold diffCascade diffCascadeStep
    rw [Function.update_noteq (by omega)]
  | succ k ih =>
    unfold diffCascade
    rw [ih _ (by omega)]
    unfold diffCascadeStep
    rw [Function.update_noteq (by omega)]

/-- Closed form of the downward accumulation loop: row `j ≤ k` becomes the
sum of the old rows `j..k` plus the old row `k+1`. -/
theorem diffCascade_le {V : Type} [AddCommGroup V] (k : ℕ) (t : ℕ → V) (j : ℕ)
    (h : j ≤ k) :
    diffCascade k t j = (∑ l in Finset.Icc j k, t l) + t (k + 1) := by
  induction k generalizing t j with
  | zero =>
    have hj : j = 0 := by omega
    subst hj
    unfold diffCascade diffCascadeStep
    rw [Function.update_same]
    simp
  | succ k ih =>
    unfold diffCascade
    rcases Nat.lt_or_ge j (k + 1) with hj | hj
    · have hjk : j ≤ k := by omega
      rw [ih (diffCascadeStep t (k + 1)) j hjk]
      have h1 : ∑ l in Finset.Icc j k, diffCascadeStep t (k + 1) l
          = ∑ l in Finset.Icc j k, t l := by
        refine Finset.sum_congr rfl fun l hl => ?_
        have : l ≤ k := (Finset.mem_Icc.mp hl).2
        unfold diffCascadeStep
        rw [Function.update_noteq (by omega)]
      rw [h1]
      have h2 : diffCascadeStep t (k + 1) (k + 1) = t (k + 1) + t (k + 2) := by
        unfold diffCascadeStep
        rw [Function.update_same]
      rw [h2, Finset.sum_Icc_succ_top (by omega : j ≤ k + 1), add_assoc]
    · have hj1 : j = k + 1 := by omega
      subst hj1
      rw [diffCascade_gt k _ (k + 1) (by omega)]
      unfold diffCascadeStep
      rw [Function.update_same]
      simp

/-- Claim C9 counterexample: the claim states `D'[i] = D[i] + d` for every
`0 ≤ i ≤ k`.  At `k = 1`, `d = 0` and the table with `D[1] = 1` and all
other rows `0`, the updated row `0` is `D[0] + D[1] + d = 1`, not
`D[0] + d = 0`. -/
theorem update_differences_not_plus_d :
    ¬(updateDifferences 1 (0 : ℚ) exTableC9 0 = exTableC9 0 + 0) := by
  norm_num [updateDifferences, diffCascade, diffCascadeStep, Function.update,
    exTableC9]

/-- Claim C9 (amended): applying the post-acceptance update
(`D'[k+2] = d − D[k+1]`, `D'[k+1] = d`, then `D'[i] = D[i] + D'[i+1]` for
`i = k` down to `0`) produces a table in which every retained divided
difference satisfies `D'[i] = Σ_{j=i..k} D[j] + d` (so only row `k` is the
old row plus exactly `d`). -/
theorem update_differences_rows {V : Type} [AddCommGroup V] (k : ℕ) (d : V)
    (t : ℕ → V) (i : ℕ) (h : i ≤ k) :
    updateDifferences k d t i = (∑ l in Finset.Icc i k, t l) + d := by
  unfold updateDifferences
  rw [diffCascade_le k _ i h]
  have h1 : ∀ l ∈ Finset.Icc i k,
      Function.update (Function.update t (k + 2) (d - t (k + 1))) (k + 1) d l
        = t l := by
    intro l hl
    have hl2 := (Finset.mem_Icc.mp hl).2
    rw [Function.update_noteq (by omega), Function.update_noteq (by omega)]
  rw [Finset.sum_congr rfl h1, Function.update_same]

/-- Witness for `update_differences_rows` at `k = 1`, `d = 5`, `i = 0`. -/
theorem update_differences_rows_witness :
    (0 : ℕ) ≤ 1 ∧
    updateDifferences 1 (5 : ℚ) exTableC9 0 = (∑ l in Finset.Icc 0 1, exTableC9 l) + 5 :=
  ⟨by decide, update_differences_rows 1 5 exTableC9 0 (by decide)⟩

/-- Claim C1: `BdfCallable::call` should return
`F(y) = M·(y + (ψ − y0)) − c·f(y, p)`.  The source computes
`tmp = x - psi_neg_y0` (ode.rs line 76), i.e. `M·(y − (ψ − y0)) − c·f`,
contradicting the comment directly above it
(`F(y) = M (y - y0 + psi) - c * f(y)`, ode.rs line 70).  With the identity
mass action, zero right-hand side, `c = 0`, `psi_neg_y0 = 1` and `y = 0`,
the source returns `−1` where the claim requires `+1`. -/
theorem bdf_call_sign_eval :
    bdfCallableCall exRhsZero exMassId 0 1 () 0 = -1 ∧
    specBdfCall exRhsZero exMassId 0 1 () 0 = 1 := by
  constructor <;>
    norm_num [bdfCallableCall, specBdfCall, exRhsZero, exMassId]

/-- Claim C4: the order controller should norm `error_const[k−1]·D[k]/w`
for the order `k−1` candidate and `error_const[k+1]·D[k+2]/w` for the order
`k+1` candidate.  The source instead norms `error_const[k]·D[k]/w` and
`error_const[k+2]·D[k]/w` (bdf.rs lines 280 and 287).  At order `k = 2`
with `D[2] = 1`, `D[4] = 0`, the source's candidate vectors are `1/3` and
`1/5` where the claim requires `1/2` and `0` (one-state system, so the
weighted norms differ as well).  Moreover `error_const` has 6 entries, so
the source's index `k + 2` is out of bounds (a Rust panic) at `k = 4`. -/
theorem order_controller_vectors_eval :
    errorMVecCode setStateErrorConst exTableC4 2 = 1/3 ∧
    specErrorMVec setStateErrorConst exTableC4 2 = 1/2 ∧
    errorPVecCode setStateErrorConst exTableC4 2 = 1/5 ∧
    specErrorPVec setStateErrorConst exTableC4 2 = 0 ∧
    setStateErrorConst.length = 6 ∧ ¬(4 + 2 < setStateErrorConst.length) := by
  refine ⟨?_, ?_, ?_, ?_, ?_, ?_⟩ <;>
    norm_num [errorMVecCode, specErrorMVec, errorPVecCode, specErrorPVec,
      exTableC4, setStateErrorConst, setStateCoeffs, maxOrder, List.range',
      setStateGammaLocal, kappaList, smul_eq_mul]

/-- Claim C8: `interpolate` should fail with an out-of-range error for
`t*` outside `[t − h, t]`.  The source (bdf.rs lines 122-133) performs no
range check and its return type admits no error: at `t = 1`, `h = 1/2`,
order 1, table `D = (1, 2, 0, …)` and the out-of-range time `t* = 2`, the
source returns the extrapolated value `5`, while the claim-side fallible
interpolation returns an interpolation error. -/
theorem interpolate_no_range_check_eval :
    interpolateBdf 1 1 (1/2) exTableC8 (2 : ℚ) = 5 ∧
    specInterpolate 1 1 (1/2) exTableC8 (2 : ℚ)
      = .error .interpolationBeforeCurrentTime := by
  constructor
  · norm_num [interpolateBdf, interpGo, exTableC8, smul_eq_mul]
  · norm_num [specInterpolate, interpolateBdf, interpGo, exTableC8, smul_eq_mul]

/-- Claim C7 counterexample: the claim states that on Newton failure the
stepper marks the rhs Jacobian stale on the callable.  The failure branch
(bdf.rs lines 251-257) only calls `_update_step_size(0.3)`, which never
touches `rhs_jacobian_is_stale`: starting from a state whose flag is
`false`, the flag is still `false` after the branch. -/
theorem newton_fail_stale_counterexample :
    ¬((newtonFailStep exStepState).rhsJacStale = true) := by
  simp [newtonFailStep, updateStepSize, exStepState]

/-- Claim C7 (amended): on Newton failure the stepper calls
`_update_step_size(0.3)` and retries: `h` becomes `0.3·h`, `n_equal_steps`
resets to `0`, `c` becomes the new `h·alpha[order]` and the combined Newton
matrix is marked stale (via `set_c`); the rhs-Jacobian staleness flag is
left unchanged by this branch (it is set once at the start of each `step`
call, bdf.rs line 208). -/
theorem newton_fail_branch_effect : ∀ (n : ℕ) (s : BdfStepState n),
    newtonFailStep s = updateStepSize (3/10) s ∧
    (newtonFailStep s).h = s.h * (3/10) ∧
    (newtonFailStep s).nEqualSteps = 0 ∧
    (newtonFailStep s).c = s.h * (3/10) * s.alphaL.getD s.order 0 ∧
    (newtonFailStep s).jacStale = true ∧
    (newtonFailStep s).rhsJacStale = s.rhsJacStale := by
  intro n s
  exact ⟨rfl, rfl, rfl, rfl, rfl, rfl⟩

/-- Claim C3: when the inner Newton iteration fails (divergence or maximum
iterations) and the Jacobian was not refreshed during this call (the linear
solver entered with a problem installed), `solve_in_place` refreshes the
Jacobian exactly once (linearised at the entry snapshot), restores the
iterate to the entry snapshot `x0 = xn`, and restarts; if the restarted
iteration fails again, it returns the did-not-converge error. -/
theorem newton_single_refresh {V J C : Type} [Sub V]
    (prob : SolverProb V J) (mon : ConvMonitor V C) (solveW : J → V → Option V)
    (j0 : J) (fuel : ℕ) (xn xf : V) (cf : C) (nf : ℕ)
    (hfail : newtonInner prob.f (solveW j0) mon fuel xn (mon.reset xn) 0
      = .failed xf cf nf) :
    (solveInPlace (some prob) (some mon) solveW (some j0) fuel xn).nJacRefresh = 1 ∧
    (solveInPlace (some prob) (some mon) solveW (some j0) fuel xn).linProblem
      = some (prob.linearise xn) ∧
    (∀ x' c' n',
      newtonInner prob.f (solveW (prob.linearise xn)) mon fuel xn cf nf
          = .converged x' c' n' →
        (solveInPlace (some prob) (some mon) solveW (some j0) fuel xn).res = .ok ∧
        (solveInPlace (some prob) (some mon) solveW (some j0) fuel xn).xn = x') ∧
    (∀ x' c' n',
      newtonInner prob.f (solveW (prob.linearise xn)) mon fuel xn cf nf
          = .failed x' c' n' →
        (solveInPlace (some prob) (some mon) solveW (some j0) fuel xn).res
          = .didNotConverge) := by
  simp only [solveInPlace, hfail]
  refine ⟨?_, ?_, ?_, ?_⟩
  · cases h2 : newtonInner prob.f (solveW (prob.linearise xn)) mon fuel xn cf nf <;> rfl
  · cases h2 : newtonInner prob.f (solveW (prob.linearise xn)) mon fuel xn cf nf <;> rfl
  · intro x' c' n' h2
    rw [h2]
    exact ⟨rfl, rfl⟩
  · intro x' c' n' h2
    rw [h2]

/-- Witness for `newton_single_refresh` on the concrete scalar system: the
first inner run diverges at the first check, the restarted run converges. -/
theorem newton_single_refresh_witness :
    (newtonInner exNewtProb.f (exNewtSolve 3) exNewtMon 2 10 (exNewtMon.reset 10) 0
      = .failed 0 1 1) ∧
    ((solveInPlace (some exNewtProb) (some exNewtMon) exNewtSolve (some 3) 2
        (10 : ℚ)).nJacRefresh = 1 ∧
     (solveInPlace (some exNewtProb) (some exNewtMon) exNewtSolve (some 3) 2
        (10 : ℚ)).linProblem = some (exNewtProb.linearise 10) ∧
     (∀ x' c' n',
       newtonInner exNewtProb.f (exNewtSolve (exNewtProb.linearise 10)) exNewtMon 2 10 1 1
           = .converged x' c' n' →
         (solveInPlace (some exNewtProb) (some exNewtMon) exNewtSolve (some 3) 2
            (10 : ℚ)).res = .ok ∧
         (solveInPlace (some exNewtProb) (some exNewtMon) exNewtSolve (some 3) 2
            (10 : ℚ)).xn = x') ∧
     (∀ x' c' n',
       newtonInner exNewtProb.f (exNewtSolve (exNewtProb.linearise 10)) exNewtMon 2 10 1 1
           = .failed x' c' n' →
         (solveInPlace (some exNewtProb) (some exNewtMon) exNewtSolve (some 3) 2
            (10 : ℚ)).res = .didNotConverge)) := by
  have h0 : newtonInner exNewtProb.f (exNewtSolve 3) exNewtMon 2 10 (exNewtMon.reset 10) 0
      = .failed 0 1 1 := by
    norm_num [newtonInner, exNewtProb, exNewtSolve, exNewtMon, ConvMonitor.reset]
  exact ⟨h0, newton_single_refresh exNewtProb exNewtMon exNewtSolve 3 2 10 0 1 1 h0⟩

/-- Claim C10: calling `solve_in_place` before a problem has been set (no
problem or no convergence monitor installed) returns an error immediately
and atomically: the iterate is unchanged, no Newton iteration is performed
and no linear solve or factorization occurs. -/
theorem newton_guard_unchanged {V J C : Type} [Sub V]
    (probOpt : Option (SolverProb V J)) (convOpt : Option (ConvMonitor V C))
    (solveW : J → V → Option V) (lp : Option J) (fuel : ℕ) (xn : V)
    (h : convOpt = none ∨ probOpt = none) :
    solveInPlace probOpt convOpt solveW lp fuel xn
      = ⟨.beforeSetProblem, xn, lp, 0, 0⟩ := by
  rcases h with h | h
  · subst h
    cases probOpt <;> rfl
  · subst h
    cases convOpt <;> rfl

/-- Witness for `newton_guard_unchanged` with no convergence monitor. -/
theorem newton_guard_unchanged_witness :
    ((none : Option (ConvMonitor ℚ ℕ)) = none ∨
      (some exNewtProb : Option (SolverProb ℚ ℚ)) = none) ∧
    solveInPlace (some exNewtProb) (none : Option (ConvMonitor ℚ ℕ))
        exNewtSolve (some 3) 2 (10 : ℚ)
      = ⟨.beforeSetProblem, 10, some 3, 0, 0⟩ :=
  ⟨Or.inl rfl,
    newton_guard_unchanged (some exNewtProb) none exNewtSolve (some 3) 2 10 (Or.inl rfl)⟩

end Diffsol
